import Mathlib

/-!
Shallow embedding of the data-fetch core of a stock-market dashboard
(`src/app.py`): the `fetch_data` function (historical batch download,
per-ticker snapshot quotes, error handling) and the sidebar ticker-set
computation (`final_tickers`).  Network effects are modelled by an
explicit environment `Env` supplying the results of the two kinds of
outbound calls, and the calls actually issued are recorded in a trace.
Prices are modelled as rationals.
-/

set_option autoImplicit false

namespace StockApp

/-- A history table: rows of (date, per-column optional closing prices).
The embedding never inspects its contents; `[]` is the empty table
(`pd.DataFrame()`). -/
abbrev Frame := List (Int × List (Option ℚ))

/-- The snapshot record returned by `yf.Ticker(sym).info`, restricted to the
keys `fetch_data` reads.  `none` models an absent key (`info.get` returning
`None`). -/
structure Info where
  currentPrice : Option ℚ
  previousClose : Option ℚ
  longName : Option String
  volume : Option Int
  marketCap : Option Int
deriving DecidableEq

/-- One entry of the `latest_quotes` dictionary built by `fetch_data`. -/
structure Quote where
  Price : ℚ
  Change : ℚ
  PercentChange : ℚ
  Name : String
  Volume : Option Int
  MarketCap : Option Int
deriving DecidableEq

/-- An outbound network call: the batched `yf.download` or a per-ticker
`yf.Ticker(...).info` snapshot request. -/
inductive NetCall where
  | downloadCall (tickers : List String) (period interval : String)
  | infoCall (ticker : String)
deriving DecidableEq

/-- The environment standing for the external market-data provider:
`download` is the result of `yf.download(tickers, period, interval)` keyed by
column name (`Except.error` models a raised exception), and `tickerInfo` is
the result of `yf.Ticker(sym).info` per symbol. -/
structure Env where
  download : List String → String → String → Except String (List (String × Frame))
  tickerInfo : String → Except String Info

/-- Everything `fetch_data` produces: the returned pair (history table,
quotes), the error message surfaced through `st.error` (if any), and the
trace of outbound calls issued. -/
structure FetchOutcome where
  history : Frame
  quotes : List (String × Quote)
  errorMsg : Option String
  calls : List NetCall
deriving DecidableEq

/-- `d.get('Close', pd.DataFrame())`: first-match association lookup with an
empty-frame default handled by the caller. -/
def assocLookup (k : String) : List (String × Frame) → Option Frame
  | [] => none
  | (k', v) :: rest => if k' = k then some v else assocLookup k rest

/-- The body of the per-ticker loop of `fetch_data` (src/app.py lines 38-60):
look up the snapshot, and emit a quote only when both `currentPrice` and
`previousClose` are present and truthy (nonzero); a raised exception or a
failed guard yields `none` (the ticker is skipped). -/
def processTicker (env : Env) (t : String) : Option Quote :=
  match env.tickerInfo t with
  | .error _ => none
  | .ok info =>
    match info.currentPrice, info.previousClose with
    | some price, some prev_close =>
      if price ≠ 0 ∧ prev_close ≠ 0 then
        some { Price := price
             , Change := price - prev_close
             , PercentChange := ((price - prev_close) / prev_close) * 100
             , Name := info.longName.getD t
             , Volume := info.volume
             , MarketCap := info.marketCap }
      else none
    | _, _ => none

/-- The `latest_quotes` dictionary: one entry per ticker whose snapshot
succeeded and passed the truthiness guard. -/
def latest_quotes (env : Env) (tickers : List String) : List (String × Quote) :=
  tickers.filterMap fun t => (processTicker env t).map fun q => (t, q)

/-- `fetch_data(tickers, period, interval)` from src/app.py lines 22-67:
empty ticker list short-circuits with no calls; a failing batched download is
caught, reported via `st.error`, and turned into empty results; otherwise the
per-ticker snapshot loop runs over all tickers and the `Close` column of the
download is returned as the history table. -/
def fetch_data (env : Env) (tickers : List String) (period interval : String) :
    FetchOutcome :=
  if tickers = [] then
    { history := [], quotes := [], errorMsg := none, calls := [] }
  else
    match env.download tickers period interval with
    | .error e =>
      { history := []
      , quotes := []
      , errorMsg := some ("Error fetching market data: " ++ e)
      , calls := [NetCall.downloadCall tickers period interval] }
    | .ok histCols =>
      { history := (assocLookup "Close" histCols).getD []
      , quotes := latest_quotes env tickers
      , errorMsg := none
      , calls := NetCall.downloadCall tickers period interval
                   :: tickers.map NetCall.infoCall }

/-- `[t.strip() for t in user_input.upper().split(',') if t.strip()]`
(src/app.py line 91): upper-case the free-text input, split on commas, strip
whitespace, drop empty fragments. -/
def custom_list (input : String) : List String :=
  (input.toUpper.splitOn ",").filterMap fun t =>
    if t.trim = "" then none else some t.trim

/-- `final_tickers = list(set(selected_tickers + custom_list))`
(src/app.py line 92), modelled with `List.dedup` in place of the
order-unspecified `list(set(...))`. -/
def final_tickers (selected : List String) (input : String) : List String :=
  (selected ++ custom_list input).dedup

/-- A snapshot with both values present but a zero previous close. -/
def infoZero : Info :=
  { currentPrice := some 5, previousClose := some 0
  , longName := some "Zero Co", volume := none, marketCap := none }

/-- A fully populated healthy snapshot. -/
def infoGood : Info :=
  { currentPrice := some 110, previousClose := some 100
  , longName := some "Good Co", volume := some 1000, marketCap := some 5000 }

/-- A one-row history table used as a concrete `Close` column. -/
def frameX : Frame := [(0, [some 1])]

/-- Environment whose every snapshot reports a zero previous close. -/
def envZero : Env :=
  { download := fun _ _ _ => .ok []
  , tickerInfo := fun _ => .ok infoZero }

/-- Environment where ticker "A" succeeds and every other snapshot raises. -/
def envMixed : Env :=
  { download := fun _ _ _ => .ok [("Close", frameX)]
  , tickerInfo := fun t => if t = "A" then .ok infoGood else .error "boom" }

/-- Environment whose batched download always raises. -/
def envBad : Env :=
  { download := fun _ _ _ => .error "network down"
  , tickerInfo := fun _ => .ok infoGood }

/-- The quote `fetch_data` builds from `infoGood` for ticker "A". -/
def quoteA : Quote :=
  { Price := 110, Change := 10, PercentChange := 10
  , Name := "Good Co", Volume := some 1000, MarketCap := some 5000 }

/-- A cache key: the sorted deduplicated ticker set with period and
interval. -/
abbrev CacheKey := List String × String × String

/-- A cached value: the (history table, quote mapping) pair that
`fetch_data` returns to its caller. -/
abbrev CachedVal := Frame × List (String × Quote)

/-- The cache store: entries of (key, value, write timestamp in seconds). -/
abbrev CacheStore := List (CacheKey × CachedVal × ℚ)

/-- Modelled from the spec: the key under which `@st.cache_data` stores a
result.  The caching machinery of the `st.cache_data` decorator is external
library code absent from the repository; per the spec the key is the exact
(sorted ticker set, period, interval) tuple. -/
def cacheKey (tickers : List String) (period interval : String) : CacheKey :=
  (List.insertionSort (fun a b => a ≤ b) tickers.dedup, period, interval)

/-- First-match lookup in the cache store. -/
def cacheFind (k : CacheKey) : CacheStore → Option (CachedVal × ℚ)
  | [] => none
  | (k', v, ts) :: rest => if k' = k then some (v, ts) else cacheFind k rest

/-- Modelled from the spec: `@st.cache_data(ttl=60)` around `fetch_data`
(src/app.py line 22), with the clock injected.  A request whose key has a
cache entry younger than 60 seconds returns the cached value and issues no
outbound call; otherwise `fetch_data` runs and its result is stored at the
current time.  Returns the value, the outbound calls issued by this
invocation, and the updated store. -/
def cachedFetch (env : Env) (store : CacheStore) (now : ℚ)
    (tickers : List String) (period interval : String) :
    CachedVal × List NetCall × CacheStore :=
  let k := cacheKey tickers period interval
  match cacheFind k store with
  | some (v, ts) =>
    if now - ts < 60 then (v, [], store)
    else
      let r := fetch_data env tickers period interval
      ((r.history, r.quotes), r.calls, (k, (r.history, r.quotes), now) :: store)
  | none =>
    let r := fetch_data env tickers period interval
    ((r.history, r.quotes), r.calls, (k, (r.history, r.quotes), now) :: store)

theorem fetch_data_ok (env : Env) {tickers : List String} (p i : String)
    {cols : List (String × Frame)} (hne : tickers ≠ [])
    (hdl : env.download tickers p i = .ok cols) :
    fetch_data env tickers p i =
      { history := (assocLookup "Close" cols).getD []
      , quotes := latest_quotes env tickers
      , errorMsg := none
      , calls := NetCall.downloadCall tickers p i :: tickers.map NetCall.infoCall } := by
  unfold fetch_data
  rw [if_neg hne, hdl]

theorem fetch_data_err (env : Env) {tickers : List String} (p i : String)
    {e : String} (hne : tickers ≠ [])
    (hdl : env.download tickers p i = .error e) :
    fetch_data env tickers p i =
      { history := [], quotes := []
      , errorMsg := some ("Error fetching market data: " ++ e)
      , calls := [NetCall.downloadCall tickers p i] } := by
  unfold fetch_data
  rw [if_neg hne, hdl]

theorem mem_latest_quotes {env : Env} {tickers : List String} {t : String}
    {q : Quote} :
    (t, q) ∈ latest_quotes env tickers ↔
      t ∈ tickers ∧ processTicker env t = some q := by
  simp only [latest_quotes, List.mem_filterMap, Option.map_eq_some']
  constructor
  · rintro ⟨a, ha, q', hq', heq⟩
    injection heq with h1 h2
    subst h1; subst h2
    exact ⟨ha, hq'⟩
  · rintro ⟨ht, hq⟩
    exact ⟨t, ht, q, hq, rfl⟩

theorem processTicker_eq_some {env : Env} {t : String} {q : Quote} :
    processTicker env t = some q ↔
      ∃ info price prev_close,
        env.tickerInfo t = .ok info ∧
        info.currentPrice = some price ∧
        info.previousClose = some prev_close ∧
        price ≠ 0 ∧ prev_close ≠ 0 ∧
        q = { Price := price, Change := price - prev_close
            , PercentChange := ((price - prev_close) / prev_close) * 100
            , Name := info.longName.getD t, Volume := info.volume
            , MarketCap := info.marketCap } := by
  cases hinfo : env.tickerInfo t with
  | error e => simp [processTicker, hinfo]
  | ok info =>
    cases hp : info.currentPrice with
    | none => simp [processTicker, hinfo, hp]
    | some price =>
      cases hpc : info.previousClose with
      | none => simp [processTicker, hinfo, hp, hpc]
      | some prev_close =>
        by_cases hz : price ≠ 0 ∧ prev_close ≠ 0
        · simp [processTicker, hinfo, hp, hpc, hz, eq_comm]
        · simp only [processTicker, hinfo, hp, hpc, if_neg hz]
          constructor
          · intro h; exact absurd h (by simp)
          · rintro ⟨info', p', pc', hi', hp', hpc', hz1, hz2, -⟩
            injection hi' with hi'
            subst hi'
            rw [hp] at hp'; rw [hpc] at hpc'
            injection hp' with hp'; injection hpc' with hpc'
            subst hp'; subst hpc'
            exact absurd ⟨hz1, hz2⟩ hz

theorem mem_fetch_quotes {env : Env} {tickers : List String} {p i t : String}
    {q : Quote} (h : (t, q) ∈ (fetch_data env tickers p i).quotes) :
    t ∈ tickers ∧ processTicker env t = some q := by
  by_cases hne : tickers = []
  · subst hne; simp [fetch_data] at h
  · cases hdl : env.download tickers p i with
    | error e => rw [fetch_data_err env p i hne hdl] at h; simp at h
    | ok cols =>
      rw [fetch_data_ok env p i hne hdl] at h
      exact mem_latest_quotes.1 h

theorem processTicker_envMixed_A : processTicker envMixed "A" = some quoteA := by
  refine processTicker_eq_some.2
    ⟨infoGood, 110, 100, rfl, rfl, rfl, by norm_num, by norm_num, ?_⟩
  simp [quoteA, infoGood]
  norm_num

/-- C1: For every empty set of tickers and every period and interval, fetch
returns an empty history table and an empty quote mapping, reports no error,
and issues no network call at all. -/
theorem fetch_data_empty_tickers (env : Env) (period interval : String) :
    fetch_data env [] period interval =
      { history := [], quotes := [], errorMsg := none, calls := [] } := rfl

/-- C2 counterexample: in `envZero` the snapshot lookup for ticker "X"
succeeds and yields both a current price (5) and a previous close (0), yet
"X" does not appear in the quote mapping, so the domain of the quote mapping
is not exactly the requested tickers whose lookup yielded both values. -/
theorem quotes_domain_counterexample :
    envZero.tickerInfo "X" = .ok infoZero ∧
    infoZero.currentPrice = some 5 ∧
    infoZero.previousClose = some 0 ∧
    (fetch_data envZero ["X"] "1y" "1d").quotes = [] :=
  ⟨rfl, rfl, rfl, rfl⟩

/-- C2 (amended): when the batched download succeeds, the domain of the quote
mapping is exactly the set of requested tickers whose snapshot lookup
succeeded and yielded a current price and a previous close that are both
present and nonzero (truthy); in particular a ticker with a missing price or
missing previous close never appears. -/
theorem quotes_domain (env : Env) (tickers : List String) (p i : String)
    (cols : List (String × Frame)) (hdl : env.download tickers p i = .ok cols)
    (t : String) :
    (∃ q, (t, q) ∈ (fetch_data env tickers p i).quotes) ↔
      t ∈ tickers ∧ ∃ info price prev_close,
        env.tickerInfo t = .ok info ∧
        info.currentPrice = some price ∧
        info.previousClose = some prev_close ∧
        price ≠ 0 ∧ prev_close ≠ 0 := by
  by_cases hne : tickers = []
  · subst hne
    simp [fetch_data]
  · rw [fetch_data_ok env p i hne hdl]
    constructor
    · rintro ⟨q, hq⟩
      obtain ⟨ht, hpt⟩ := mem_latest_quotes.1 hq
      obtain ⟨info, price, prev_close, hi, hp, hpc, hz1, hz2, -⟩ :=
        processTicker_eq_some.1 hpt
      exact ⟨ht, info, price, prev_close, hi, hp, hpc, hz1, hz2⟩
    · rintro ⟨ht, info, price, prev_close, hi, hp, hpc, hz1, hz2⟩
      exact ⟨_, mem_latest_quotes.2 ⟨ht, processTicker_eq_some.2
        ⟨info, price, prev_close, hi, hp, hpc, hz1, hz2, rfl⟩⟩⟩

/-- C2 witness: concrete instantiation of the amended domain
characterization at `envMixed` and ticker "A". -/
theorem quotes_domain_witness :
    (∃ q, ("A", q) ∈ (fetch_data envMixed ["A", "B"] "1y" "1d").quotes) ↔
      "A" ∈ ["A", "B"] ∧ ∃ info price prev_close,
        envMixed.tickerInfo "A" = .ok info ∧
        info.currentPrice = some price ∧
        info.previousClose = some prev_close ∧
        price ≠ 0 ∧ prev_close ≠ 0 :=
  quotes_domain envMixed ["A", "B"] "1y" "1d" [("Close", frameX)] rfl "A"

/-- C3: for every ticker present in the quote mapping, the emitted Change
field equals price minus previous close and the emitted PercentChange field
equals change divided by previous close, times 100. -/
theorem quote_change_formula (env : Env) (tickers : List String) (p i : String)
    (t : String) (q : Quote)
    (h : (t, q) ∈ (fetch_data env tickers p i).quotes) :
    ∃ info prev_close,
      env.tickerInfo t = .ok info ∧
      info.currentPrice = some q.Price ∧
      info.previousClose = some prev_close ∧
      q.Change = q.Price - prev_close ∧
      q.PercentChange = (q.Change / prev_close) * 100 := by
  by_cases hne : tickers = []
  · subst hne; simp [fetch_data] at h
  · cases hdl : env.download tickers p i with
    | error e => rw [fetch_data_err env p i hne hdl] at h; simp at h
    | ok cols =>
      rw [fetch_data_ok env p i hne hdl] at h
      obtain ⟨-, hpt⟩ := mem_latest_quotes.1 h
      obtain ⟨info, price, prev_close, hi, hp, hpc, -, -, hq⟩ :=
        processTicker_eq_some.1 hpt
      subst hq
      exact ⟨info, prev_close, hi, hp, hpc, rfl, by ring⟩

/-- C3 witness: the change formulas instantiated at `envMixed`, ticker "A"
and its emitted quote. -/
theorem quote_change_formula_witness :
    ∃ info prev_close,
      envMixed.tickerInfo "A" = .ok info ∧
      info.currentPrice = some quoteA.Price ∧
      info.previousClose = some prev_close ∧
      quoteA.Change = quoteA.Price - prev_close ∧
      quoteA.PercentChange = (quoteA.Change / prev_close) * 100 :=
  quote_change_formula envMixed ["A", "B"] "1y" "1d" "A" quoteA
    (by
      rw [fetch_data_ok envMixed "1y" "1d" (by simp) rfl]
      exact mem_latest_quotes.2 ⟨by simp, processTicker_envMixed_A⟩)

/-- C4: a raised per-ticker snapshot lookup does not abort the batch: no
error is reported, the failing ticker is omitted from the quote mapping, the
snapshot call for every requested ticker is still issued, and every ticker
whose snapshot produced a quote is still included. -/
theorem per_ticker_failure_isolated (env : Env) (tickers : List String)
    (p i : String) (cols : List (String × Frame)) (t e : String)
    (hdl : env.download tickers p i = .ok cols)
    (ht : t ∈ tickers) (herr : env.tickerInfo t = .error e) :
    (∀ q : Quote, (t, q) ∉ (fetch_data env tickers p i).quotes) ∧
    (fetch_data env tickers p i).errorMsg = none ∧
    (∀ t' ∈ tickers,
      NetCall.infoCall t' ∈ (fetch_data env tickers p i).calls) ∧
    (∀ t' q, t' ∈ tickers → processTicker env t' = some q →
      (t', q) ∈ (fetch_data env tickers p i).quotes) := by
  have hne : tickers ≠ [] := by
    rintro rfl; exact absurd ht (List.not_mem_nil t)
  refine ⟨?_, ?_, ?_, ?_⟩
  · intro q hq
    obtain ⟨-, hpt⟩ := mem_fetch_quotes hq
    obtain ⟨info, price, pc, hi, -⟩ := processTicker_eq_some.1 hpt
    rw [herr] at hi
    exact Except.noConfusion hi
  · rw [fetch_data_ok env p i hne hdl]
  · intro t' ht'
    rw [fetch_data_ok env p i hne hdl]
    exact List.mem_cons_of_mem _ (List.mem_map_of_mem _ ht')
  · intro t' q ht' hq
    rw [fetch_data_ok env p i hne hdl]
    exact mem_latest_quotes.2 ⟨ht', hq⟩

/-- C4 witness: in `envMixed` the snapshot for "B" raises while "A"
succeeds; the batch is not aborted and "A" keeps its quote. -/
theorem per_ticker_failure_isolated_witness :
    ("B", quoteA) ∉ (fetch_data envMixed ["A", "B"] "1y" "1d").quotes ∧
    (fetch_data envMixed ["A", "B"] "1y" "1d").errorMsg = none ∧
    NetCall.infoCall "A" ∈ (fetch_data envMixed ["A", "B"] "1y" "1d").calls ∧
    ("A", quoteA) ∈ (fetch_data envMixed ["A", "B"] "1y" "1d").quotes := by
  obtain ⟨h1, h2, h3, h4⟩ := per_ticker_failure_isolated envMixed ["A", "B"]
    "1y" "1d" [("Close", frameX)] "B" "boom" rfl (by simp) rfl
  exact ⟨h1 quoteA, h2, h3 "A" (by simp),
    h4 "A" quoteA (by simp) processTicker_envMixed_A⟩

/-- C5: if the batched historical download raises, `fetch_data` catches the
exception, reports the message (via `st.error`), returns an empty history
table and an empty quote mapping, and issues no further calls; the embedding
of `fetch_data` is a total function, so no exception reaches the caller. -/
theorem batch_failure_reported (env : Env) (tickers : List String)
    (p i e : String) (hne : tickers ≠ [])
    (hdl : env.download tickers p i = .error e) :
    fetch_data env tickers p i =
      { history := [], quotes := []
      , errorMsg := some ("Error fetching market data: " ++ e)
      , calls := [NetCall.downloadCall tickers p i] } :=
  fetch_data_err env p i hne hdl

/-- C5 witness: the batch-failure behavior at `envBad`, whose download
always raises with message "network down". -/
theorem batch_failure_reported_witness :
    fetch_data envBad ["A"] "1y" "1d" =
      { history := [], quotes := []
      , errorMsg := some ("Error fetching market data: " ++ "network down")
      , calls := [NetCall.downloadCall ["A"] "1y" "1d"] } :=
  batch_failure_reported envBad ["A"] "1y" "1d" "network down" (by simp) rfl

/-- C6 (cache modelled from the spec; the `st.cache_data` machinery is
external library code): starting from an empty cache, a first request at
time t1 issues exactly the `fetch_data` calls; repeating the identical
request at time t2 returns the same value, with no outbound calls when
t2 - t1 < 60 (cache hit within the TTL) and with the `fetch_data`
calls re-issued when t2 - t1 ≥ 60 (entry expired). -/
theorem cachedFetch_ttl (env : Env) (tickers : List String) (p i : String)
    (t1 t2 : ℚ) :
    (cachedFetch env [] t1 tickers p i).2.1 =
      (fetch_data env tickers p i).calls ∧
    (cachedFetch env (cachedFetch env [] t1 tickers p i).2.2 t2
        tickers p i).1 =
      (cachedFetch env [] t1 tickers p i).1 ∧
    (cachedFetch env (cachedFetch env [] t1 tickers p i).2.2 t2
        tickers p i).2.1 =
      (if t2 - t1 < 60 then [] else (fetch_data env tickers p i).calls) := by
  by_cases h : t2 - t1 < 60 <;> simp [cachedFetch, cacheFind, h]

/-- C7: a ticker whose snapshot reports a previous close of 0 is rejected by
the truthiness guard: `processTicker` returns `none` before the quote record
(and the percent-change division inside it) is ever built, and the ticker is
omitted from the quote mapping. -/
theorem zero_prev_close_guarded (env : Env) (tickers : List String)
    (p i t : String) (info : Info)
    (ht : t ∈ tickers) (hi : env.tickerInfo t = .ok info)
    (hz : info.previousClose = some 0) :
    processTicker env t = none ∧
    ∀ q : Quote, (t, q) ∉ (fetch_data env tickers p i).quotes := by
  have hpt : processTicker env t = none := by
    cases hq : processTicker env t with
    | none => rfl
    | some q =>
      obtain ⟨info', price, pc, hi', hp', hpc', hz1, hz2, -⟩ :=
        processTicker_eq_some.1 hq
      rw [hi] at hi'
      injection hi' with hi'
      subst hi'
      rw [hz] at hpc'
      injection hpc' with hpc'
      exact (hz2 hpc'.symm).elim
  refine ⟨hpt, fun q hq => ?_⟩
  obtain ⟨-, hmem⟩ := mem_fetch_quotes hq
  rw [hpt] at hmem
  exact Option.noConfusion hmem

/-- C7 witness: ticker "X" in `envZero` (previous close 0) is guarded out. -/
theorem zero_prev_close_guarded_witness :
    processTicker envZero "X" = none ∧
    ∀ q : Quote, ("X", q) ∉ (fetch_data envZero ["X"] "1y" "1d").quotes :=
  zero_prev_close_guarded envZero ["X"] "1y" "1d" "X" infoZero (by simp)
    rfl rfl

/-- C8: the ticker list handed to fetch is the deduplicated union of the
catalog selections and the custom entries, where the custom entries are the
nonempty whitespace-stripped fragments of the upper-cased free-text input
split on commas. -/
theorem final_tickers_union (selected : List String) (input : String) :
    (final_tickers selected input).Nodup ∧
    ∀ t : String,
      t ∈ final_tickers selected input ↔
        t ∈ selected ∨
        ∃ frag ∈ input.toUpper.splitOn ",", frag.trim = t ∧ t ≠ "" := by
  refine ⟨List.nodup_dedup _, fun t => ?_⟩
  rw [final_tickers, List.mem_dedup, List.mem_append]
  apply or_congr Iff.rfl
  simp only [custom_list, List.mem_filterMap]
  constructor
  · rintro ⟨frag, hfrag, hsome⟩
    by_cases h : frag.trim = ""
    · rw [if_pos h] at hsome
      exact absurd hsome (by simp)
    · rw [if_neg h] at hsome
      injection hsome with hsome
      exact ⟨frag, hfrag, hsome, hsome ▸ h⟩
  · rintro ⟨frag, hfrag, htrim, hne⟩
    refine ⟨frag, hfrag, ?_⟩
    rw [htrim, if_neg hne]

/-- C9: a ticker whose snapshot carries a present-but-zero current price or
previous close is omitted from the quote mapping: the emission guard tests
truthiness, not mere presence. -/
theorem zero_value_omitted (env : Env) (tickers : List String)
    (p i t : String) (info : Info)
    (ht : t ∈ tickers) (hi : env.tickerInfo t = .ok info)
    (hz : info.currentPrice = some 0 ∨ info.previousClose = some 0) :
    ∀ q : Quote, (t, q) ∉ (fetch_data env tickers p i).quotes := by
  intro q hq
  obtain ⟨-, hpt⟩ := mem_fetch_quotes hq
  obtain ⟨info', price, pc, hi', hp', hpc', hz1, hz2, -⟩ :=
    processTicker_eq_some.1 hpt
  rw [hi] at hi'
  injection hi' with hi'
  subst hi'
  cases hz with
  | inl h =>
    rw [h] at hp'
    injection hp' with hp'
    exact hz1 hp'.symm
  | inr h =>
    rw [h] at hpc'
    injection hpc' with hpc'
    exact hz2 hpc'.symm

/-- C9 witness: ticker "Y" in `envZero` reports price 5 and previous close
0 (present but zero) and is omitted. -/
theorem zero_value_omitted_witness :
    ("Y", quoteA) ∉ (fetch_data envZero ["Y"] "1y" "1d").quotes :=
  zero_value_omitted envZero ["Y"] "1y" "1d" "Y" infoZero (by simp) rfl
    (Or.inr rfl) quoteA

/-- C10: when the batched download succeeds, the returned history table is
exactly the `Close` column of the downloaded data, and the empty table when
the data has no `Close` column. -/
theorem history_is_close_column (env : Env) (tickers : List String)
    (p i : String) (cols : List (String × Frame)) (hne : tickers ≠ [])
    (hdl : env.download tickers p i = .ok cols) :
    (assocLookup "Close" cols = none →
      (fetch_data env tickers p i).history = []) ∧
    (∀ f : Frame, assocLookup "Close" cols = some f →
      (fetch_data env tickers p i).history = f) := by
  rw [fetch_data_ok env p i hne hdl]
  constructor
  · intro h
    show (assocLookup "Close" cols).getD [] = []
    rw [h]
    rfl
  · intro f h
    show (assocLookup "Close" cols).getD [] = f
    rw [h]
    rfl

/-- C10 witness: in `envMixed` the download has a `Close` column `frameX`,
and the returned history table is exactly `frameX`. -/
theorem history_is_close_column_witness :
    (fetch_data envMixed ["A"] "1y" "1d").history = frameX :=
  (history_is_close_column envMixed ["A"] "1y" "1d" [("Close", frameX)]
    (by simp) rfl).2 frameX rfl

end StockApp
